import Mathlib

/-
Verification development for the BigQuery-to-Databricks bulk table
transfer engine.  The definitions below are a shallow embedding of the
code in databricks_upload.py and run_all.py; theorems settle the
specified properties against that embedding.
-/

namespace Pipeline

/-! ## Byte-payload chunking (the while-loop of _dbfs_stream_upload, lines 107-120)

The Python loop is
    offset = 0
    while offset < len(file_bytes):
        chunk = file_bytes[offset : offset + chunk_size]
        ...
        offset += chunk_size
We embed it as a fuel-indexed structural recursion (fuel = list length
suffices because each step consumes at least one element when the chunk
size is positive). -/

def chunksOfF (cs : Nat) : Nat → List α → List (List α)
  | _, [] => []
  | 0, _ => []
  | fuel + 1, l => l.take cs :: chunksOfF cs fuel (l.drop cs)

def chunksOf (cs : Nat) (l : List α) : List (List α) :=
  chunksOfF cs l.length l

theorem chunksOfF_nil (cs fuel : Nat) : chunksOfF cs fuel ([] : List α) = [] := by
  cases fuel <;> rfl

theorem chunksOfF_cons (cs fuel : Nat) (a : α) (l : List α) :
    chunksOfF cs (fuel + 1) (a :: l) =
      (a :: l).take cs :: chunksOfF cs fuel ((a :: l).drop cs) := rfl

theorem join_chunksOfF (cs : Nat) (hcs : 0 < cs) :
    ∀ (fuel : Nat) (l : List α), l.length ≤ fuel → (chunksOfF cs fuel l).flatten = l := by
  intro fuel
  induction fuel with
  | zero =>
    intro l hl
    have : l = [] := List.length_eq_zero.mp (Nat.le_zero.mp hl)
    subst this
    rfl
  | succ fuel ih =>
    intro l hl
    cases l with
    | nil => rfl
    | cons a t =>
      rw [chunksOfF_cons, List.flatten_cons, ih]
      · exact List.take_append_drop cs (a :: t)
      · have hlen : ((a :: t).drop cs).length = (a :: t).length - cs := List.length_drop cs _
        have : (a :: t).length - cs ≤ (a :: t).length - 1 :=
          Nat.sub_le_sub_left hcs _
        omega

theorem join_chunksOf (cs : Nat) (hcs : 0 < cs) (l : List α) :
    (chunksOf cs l).flatten = l :=
  join_chunksOfF cs hcs l.length l (Nat.le_refl _)

theorem length_chunksOfF (cs : Nat) (hcs : 0 < cs) :
    ∀ (fuel : Nat) (l : List α), l.length ≤ fuel →
      (chunksOfF cs fuel l).length = (l.length + cs - 1) / cs := by
  intro fuel
  induction fuel with
  | zero =>
    intro l hl
    have : l = [] := List.length_eq_zero.mp (Nat.le_zero.mp hl)
    subst this
    simp [chunksOfF_nil, Nat.div_eq_of_lt (Nat.sub_lt hcs Nat.one_pos)]
  | succ fuel ih =>
    intro l hl
    cases l with
    | nil => simp [chunksOfF_nil, Nat.div_eq_of_lt (Nat.sub_lt hcs Nat.one_pos)]
    | cons a t =>
      rw [chunksOfF_cons, List.length_cons, ih _ (by
        have hlen : ((a :: t).drop cs).length = (a :: t).length - cs := List.length_drop cs _
        have : (a :: t).length - cs ≤ (a :: t).length - 1 :=
          Nat.sub_le_sub_left hcs _
        omega)]
      rw [List.length_drop]
      rcases le_or_lt (a :: t).length cs with hle | hlt
      · have h1 : (a :: t).length - cs = 0 := Nat.sub_eq_zero_of_le hle
        rw [h1]
        have h2 : (0 + cs - 1) / cs = 0 := Nat.div_eq_of_lt (by omega)
        rw [h2]
        have hpos : 0 < (a :: t).length := by simp
        have : ((a :: t).length + cs - 1) / cs = 1 := by
          apply Nat.div_eq_of_lt_le
          · omega
          · omega
        omega
      · have h1 : (a :: t).length - cs + cs - 1 = (a :: t).length - 1 := by omega
        rw [h1]
        have h2 : (a :: t).length + cs - 1 = ((a :: t).length - 1) + cs := by omega
        rw [h2, Nat.add_div_right _ hcs]

/-! ## DBFS upload model (databricks_upload.py, lines 46-137)

Network effects are embedded as a trace of issued requests.  The oracle
argument gives the outcome of raise_for_status for the n-th request the
function issues (true = HTTP success); the model returns the full request
trace together with the request whose failure was raised, if any. -/

/-- Request issued against the DBFS REST API. -/
inductive Req
  | put (path : String) (contents : List Nat)
  | create (path : String)
  | addBlock (handle : Nat) (data : List Nat)
  | close (handle : Nat)
  deriving DecidableEq, Repr

/-- Default chunk_size of _dbfs_stream_upload (line 94): 1 MiB. -/
def chunkSize : Nat := 1024 * 1024

def isCloseReq : Req → Bool
  | .close _ => true
  | _ => false

def countClose (l : List Req) : Nat := (l.filter isCloseReq).length

/-- Step 2 of _dbfs_stream_upload (lines 106-120): one add-block request per
chunk, stopping at the first request whose status check raises.  The
accumulator sent holds the requests issued so far, so the next request has
index sent.length in the oracle. -/
def addBlocks (oracle : Nat → Bool) (handle : Nat) :
    List (List Nat) → List Req → List Req × Option Req
  | [], sent => (sent, none)
  | c :: rest, sent =>
    if oracle sent.length then
      addBlocks oracle handle rest (sent ++ [Req.addBlock handle c])
    else (sent ++ [Req.addBlock handle c], some (Req.addBlock handle c))

/-- Model of DatabricksUploader._dbfs_stream_upload (lines 94-137), with the
chunk_size parameter cs (its Python default is 1 MiB, passed explicitly at
every use below).  The create request precedes the try block, so its failure
raises with no cleanup; a failure of an add-block or of the final close is
caught by the except clause, which issues one more close request whose
outcome is not inspected (no raise_for_status on it), then re-raises the
original error. -/
def dbfsStreamUpload (oracle : Nat → Bool) (path : String) (handle : Nat)
    (bytes : List Nat) (cs : Nat) : List Req × Option Req :=
  if oracle 0 then
    match addBlocks oracle handle (chunksOf cs bytes) [Req.create path] with
    | (sent, some e) => (sent ++ [Req.close handle], some e)
    | (sent, none) =>
      if oracle sent.length then (sent ++ [Req.close handle], none)
      else (sent ++ [Req.close handle, Req.close handle], some (Req.close handle))
  else ([Req.create path], some (Req.create path))

/-- Size dispatch of upload_to_dbfs (lines 72-75) together with _dbfs_put
(lines 79-92): payloads of at most 1 MiB go through one direct put request,
larger payloads through the streaming protocol at the default 1 MiB
chunk size. -/
def uploadBytes (oracle : Nat → Bool) (path : String) (handle : Nat)
    (bytes : List Nat) : List Req × Option Req :=
  if bytes.length ≤ 1 * 1024 * 1024 then
    ([Req.put path bytes], if oracle 0 then none else some (Req.put path bytes))
  else dbfsStreamUpload oracle path handle bytes chunkSize

def allOk : Nat → Bool := fun _ => true

theorem chunksOfF_zero_fuel (cs : Nat) (l : List α) : chunksOfF cs 0 l = [] := by
  cases l <;> rfl

theorem mem_chunksOfF (cs : Nat) (hcs : 0 < cs) :
    ∀ (fuel : Nat) (l : List α), ∀ b ∈ chunksOfF cs fuel l, b.length ≤ cs ∧ b ≠ [] := by
  intro fuel
  induction fuel with
  | zero =>
    intro l b hb
    rw [chunksOfF_zero_fuel] at hb
    exact absurd hb (List.not_mem_nil b)
  | succ fuel ih =>
    intro l b hb
    cases l with
    | nil => exact absurd hb (List.not_mem_nil b)
    | cons a t =>
      rw [chunksOfF_cons] at hb
      rcases List.mem_cons.mp hb with h | h
      · subst h
        constructor
        · rw [List.length_take]
          exact Nat.min_le_left _ _
        · cases cs with
          | zero => exact absurd hcs (Nat.lt_irrefl 0)
          | succ n => simp [List.take_succ_cons]
      · exact ih _ b h

theorem addBlocks_allOk (handle : Nat) :
    ∀ (chunks : List (List Nat)) (sent : List Req),
      addBlocks allOk handle chunks sent
        = (sent ++ chunks.map (Req.addBlock handle), none) := by
  intro chunks
  induction chunks with
  | nil => intro sent; simp [addBlocks]
  | cons c rest ih =>
    intro sent
    simp only [addBlocks, allOk, if_true]
    rw [ih]
    simp

/-- C1: a payload of at most 1,048,576 bytes is transmitted as exactly one
direct put request; a larger payload as exactly one create request, then one
add-block request per chunk (1 MiB chunks in payload order, the number of
chunks being the ceiling of length over chunk size, their concatenation
reconstructing the payload, each chunk nonempty and at most 1 MiB), then
exactly one close request. -/
theorem c1_upload_request_pattern (path : String) (handle : Nat) (bytes : List Nat) :
    (uploadBytes allOk path handle bytes).1
      = (if bytes.length ≤ 1048576 then [Req.put path bytes]
         else Req.create path ::
           ((chunksOf chunkSize bytes).map (Req.addBlock handle) ++ [Req.close handle]))
    ∧ (uploadBytes allOk path handle bytes).2 = none
    ∧ (chunksOf chunkSize bytes).flatten = bytes
    ∧ (chunksOf chunkSize bytes).length = (bytes.length + (chunkSize - 1)) / chunkSize
    ∧ (chunksOf chunkSize bytes).all
        (fun b => decide (b.length ≤ chunkSize) && !b.isEmpty) = true := by
  have hcs : 0 < chunkSize := by norm_num [chunkSize]
  have hthr : 1 * 1024 * 1024 = 1048576 := by norm_num
  have hstream : ¬ bytes.length ≤ 1048576 →
      dbfsStreamUpload allOk path handle bytes chunkSize
        = (Req.create path ::
            ((chunksOf chunkSize bytes).map (Req.addBlock handle) ++ [Req.close handle]),
           none) := by
    intro _
    rw [dbfsStreamUpload]
    simp only [allOk, if_true]
    rw [addBlocks_allOk]
    simp
  refine ⟨?_, ?_, join_chunksOf chunkSize hcs bytes, ?_, ?_⟩
  · by_cases h : bytes.length ≤ 1048576
    · rw [if_pos h]
      rw [uploadBytes, if_pos (by rw [hthr]; exact h)]
    · rw [if_neg h]
      rw [uploadBytes, if_neg (by rw [hthr]; exact h)]
      rw [hstream h]
  · by_cases h : bytes.length ≤ 1048576
    · rw [uploadBytes, if_pos (by rw [hthr]; exact h)]
      simp [allOk]
    · rw [uploadBytes, if_neg (by rw [hthr]; exact h)]
      rw [hstream h]
  · rw [chunksOf, length_chunksOfF chunkSize hcs bytes.length bytes (Nat.le_refl _)]
    have h1 : bytes.length + chunkSize - 1 = bytes.length + (chunkSize - 1) := by omega
    rw [h1]
  · rw [List.all_eq_true]
    intro b hb
    have := mem_chunksOfF chunkSize hcs bytes.length bytes b hb
    simp only [Bool.and_eq_true, decide_eq_true_eq]
    exact ⟨this.1, by simpa [List.isEmpty_iff] using this.2⟩

theorem addBlocks_shape (oracle : Nat → Bool) (handle : Nat) :
    ∀ (chunks : List (List Nat)) (sent : List Req),
      ∃ extra, (addBlocks oracle handle chunks sent).1 = sent ++ extra ∧
        ∀ q ∈ extra, ∃ c, q = Req.addBlock handle c := by
  intro chunks
  induction chunks with
  | nil =>
    intro sent
    exact ⟨[], by simp [addBlocks]⟩
  | cons c rest ih =>
    intro sent
    rw [addBlocks]
    by_cases h : oracle sent.length
    · rw [if_pos h]
      obtain ⟨extra, he, hq⟩ := ih (sent ++ [Req.addBlock handle c])
      refine ⟨Req.addBlock handle c :: extra, ?_, ?_⟩
      · rw [he, List.append_assoc]
        rfl
      · intro q hq2
        rcases List.mem_cons.mp hq2 with h2 | h2
        · exact ⟨c, h2⟩
        · exact hq q h2
    · rw [if_neg h]
      exact ⟨[Req.addBlock handle c], rfl, by
        intro q hq
        rcases List.mem_cons.mp hq with h2 | h2
        · exact ⟨c, h2⟩
        · exact absurd h2 (List.not_mem_nil q)⟩

theorem addBlocks_error (oracle : Nat → Bool) (handle : Nat) :
    ∀ (chunks : List (List Nat)) (sent : List Req) (e : Req),
      (addBlocks oracle handle chunks sent).2 = some e →
        ∃ c, e = Req.addBlock handle c := by
  intro chunks
  induction chunks with
  | nil =>
    intro sent e he
    simp [addBlocks] at he
  | cons c rest ih =>
    intro sent e he
    rw [addBlocks] at he
    by_cases h : oracle sent.length
    · rw [if_pos h] at he
      exact ih _ e he
    · rw [if_neg h] at he
      simp only [Option.some_inj] at he
      exact ⟨c, he.symm⟩

theorem countClose_append (l₁ l₂ : List Req) :
    countClose (l₁ ++ l₂) = countClose l₁ + countClose l₂ := by
  simp [countClose, List.filter_append]

theorem countClose_addBlock_list (l : List Req) (handle : Nat)
    (h : ∀ q ∈ l, ∃ c, q = Req.addBlock handle c) : countClose l = 0 := by
  simp only [countClose, List.length_eq_zero]
  rw [List.filter_eq_nil_iff]
  intro q hq
  obtain ⟨c, hc⟩ := h q hq
  subst hc
  simp [isCloseReq]

/-- C2 (amended): on the streaming path, a failure of an add-block or of the
final close request is followed by exactly one further best-effort close
request (the last request issued, its outcome not inspected) and the
original error is re-signaled; a successful run issues exactly one close
request; but a failure of the initial create request is re-signaled with no
cleanup close request at all, since the create precedes the try block. -/
theorem c2_stream_cleanup (oracle : Nat → Bool) (path : String) (handle : Nat)
    (bytes : List Nat) (cs : Nat) :
    ((dbfsStreamUpload oracle path handle bytes cs).2 = none →
       countClose (dbfsStreamUpload oracle path handle bytes cs).1 = 1)
    ∧ (oracle 0 = false →
       (dbfsStreamUpload oracle path handle bytes cs).1 = [Req.create path]
       ∧ (dbfsStreamUpload oracle path handle bytes cs).2 = some (Req.create path)
       ∧ countClose (dbfsStreamUpload oracle path handle bytes cs).1 = 0)
    ∧ (oracle 0 = true → ∀ e, (dbfsStreamUpload oracle path handle bytes cs).2 = some e →
       (dbfsStreamUpload oracle path handle bytes cs).1.getLast? = some (Req.close handle)
       ∧ ((∃ c, e = Req.addBlock handle c)
            ∧ countClose (dbfsStreamUpload oracle path handle bytes cs).1 = 1
          ∨ e = Req.close handle
            ∧ countClose (dbfsStreamUpload oracle path handle bytes cs).1 = 2)) := by
  by_cases h0 : oracle 0
  · obtain ⟨extra, hsh, hq⟩ :=
      addBlocks_shape oracle handle (chunksOf cs bytes) [Req.create path]
    have hcnt : countClose (addBlocks oracle handle (chunksOf cs bytes)
        [Req.create path]).1 = 0 := by
      rw [hsh, countClose_append, countClose_addBlock_list extra handle hq]
      simp [countClose, isCloseReq]
    rw [dbfsStreamUpload, if_pos h0]
    rcases hab : addBlocks oracle handle (chunksOf cs bytes) [Req.create path]
      with ⟨sent, err⟩
    rw [hab] at hcnt
    cases err with
    | some e =>
      simp only
      have he := addBlocks_error oracle handle (chunksOf cs bytes) _ e
        (by rw [hab])
      refine ⟨by intro h; exact absurd h (by simp), by intro h; rw [h] at h0; exact absurd h0 (by simp), ?_⟩
      intro _ e2 he2
      simp only [Option.some_inj] at he2
      subst he2
      constructor
      · exact List.getLast?_concat sent
      · left
        exact ⟨he, by rw [countClose_append, hcnt]; simp [countClose, isCloseReq]⟩
    | none =>
      simp only
      by_cases hc : oracle sent.length
      · rw [if_pos hc]
        refine ⟨?_, by intro h; rw [h] at h0; exact absurd h0 (by simp), ?_⟩
        · intro _
          rw [countClose_append, hcnt]
          simp [countClose, isCloseReq]
        · intro _ e2 he2
          exact absurd he2 (by simp)
      · rw [if_neg hc]
        refine ⟨by intro h; exact absurd h (by simp), by intro h; rw [h] at h0; exact absurd h0 (by simp), ?_⟩
        intro _ e2 he2
        simp only [Option.some_inj] at he2
        subst he2
        constructor
        · have : sent ++ [Req.close handle, Req.close handle]
              = (sent ++ [Req.close handle]) ++ [Req.close handle] := by
            simp
          rw [this]
          exact List.getLast?_concat _
        · right
          refine ⟨rfl, ?_⟩
          rw [countClose_append, hcnt]
          simp [countClose, isCloseReq]
  · rw [dbfsStreamUpload, if_neg h0]
    simp only [Bool.not_eq_true] at h0
    refine ⟨by intro h; exact absurd h (by simp), ?_, ?_⟩
    · intro _
      exact ⟨rfl, rfl, by simp [countClose, isCloseReq]⟩
    · intro h
      rw [h] at h0
      exact absurd h0 (by simp)

/-- Witness for c2_stream_cleanup: a one-chunk payload whose single add-block
request fails; the trace ends with the cleanup close and holds exactly one
close request. -/
theorem c2_stream_cleanup_witness :
    (dbfsStreamUpload (fun n => decide (n = 0)) "p" 7 [5] 1).1.getLast?
        = some (Req.close 7)
    ∧ countClose (dbfsStreamUpload (fun n => decide (n = 0)) "p" 7 [5] 1).1 = 1 := by
  have h := (c2_stream_cleanup (fun n => decide (n = 0)) "p" 7 [5] 1).2.2
    (by decide) (Req.addBlock 7 [5]) (by decide)
  refine ⟨h.1, ?_⟩
  rcases h.2 with ⟨_, hc⟩ | ⟨hbad, _⟩
  · exact hc
  · exact absurd hbad (by decide)

def bigPayload : List Nat := List.replicate (1024 * 1024 + 1) 0

/-- C2 (counterexample): for a payload of 1,048,577 bytes whose create (open)
request fails, the upload raises the create error having issued no close
request at all, refuting the claim that every failure of open, append or
close is followed by exactly one cleanup close call. -/
theorem c2_open_failure_counterexample :
    bigPayload.length = 1024 * 1024 + 1
    ∧ (uploadBytes (fun _ => false) "p" 7 bigPayload).2 = some (Req.create "p")
    ∧ countClose (uploadBytes (fun _ => false) "p" 7 bigPayload).1 = 0 := by
  have hlen : bigPayload.length = 1024 * 1024 + 1 := by
    simp only [bigPayload, List.length_replicate]
  have hup : uploadBytes (fun _ => false) "p" 7 bigPayload
      = dbfsStreamUpload (fun _ => false) "p" 7 bigPayload chunkSize := by
    rw [uploadBytes, if_neg (by rw [hlen]; norm_num)]
  have hstream : dbfsStreamUpload (fun _ => false) "p" 7 bigPayload chunkSize
      = ([Req.create "p"], some (Req.create "p")) := rfl
  refine ⟨hlen, ?_, ?_⟩
  · rw [hup, hstream]
  · rw [hup, hstream]
    simp [countClose, isCloseReq]

/-! ## SQL literal encoding (write_with_sql_connector, lines 256-293)

Row values are embedded as a closed variant type mirroring the runtime
type tests the code performs, in the order the code performs them: None,
list/dict, numpy ndarray, scalar NA (pd.isna), bool, int/float, str, and
a final fallback on the str() text of the value.  Numeric and fallback
values carry their Python decimal/str() text, since only its quoting
behaviour is at issue. -/

/-- Single-quote character, written by code point to keep source plain. -/
def sq : String := String.singleton (Char.ofNat 39)

/-- Embedding of .replace applied with the single-quote doubling arguments
(lines 267, 274, 285, 288, 291): each single quote becomes two. -/
def sqlEscapeChar (c : Char) : String :=
  if c = Char.ofNat 39 then sq ++ sq else String.singleton c

def sqlEscape (s : String) : String :=
  String.join (s.data.map sqlEscapeChar)

def sqlQuote (s : String) : String := sq ++ s ++ sq

/-- Runtime value of one DataFrame cell, tagged by the Python type tests of
lines 259-292. -/
inductive Value
  | vnull
  | vnan
  | vbool (b : Bool)
  | vint (n : Int)
  | vfloat (rep : String)
  | vstr (s : String)
  | vlist (xs : List Value)
  | vdict (ps : List (String × Value))
  | vndarray (xs : List Value)
  | vother (rep : String)

/-- JSON string serialization as json.dumps renders one string: wrapped in
double quotes, with embedded double quotes and backslashes escaped (other
escapes do not arise in the properties below). -/
def pyJsonEscapeChar (c : Char) : String :=
  if c = Char.ofNat 34 then "\\\""
  else if c = Char.ofNat 92 then "\\\\"
  else String.singleton c

def pyJsonStr (s : String) : String :=
  "\"" ++ String.join (s.data.map pyJsonEscapeChar) ++ "\""

/- Embedding of json.dumps(v, default=str) with its default separators:
elements joined by comma-space, dict keys and values by colon-space;
non-serializable objects fall back to their str() text (default=str). -/
mutual

def jsonDumps : Value → String
  | .vnull => "null"
  | .vnan => "NaN"
  | .vbool b => if b then "true" else "false"
  | .vint n => toString n
  | .vfloat rep => rep
  | .vstr s => pyJsonStr s
  | .vlist xs => "[" ++ String.intercalate ", " (jsonDumpsList xs) ++ "]"
  | .vdict ps => "\x7b" ++ String.intercalate ", " (jsonDumpsPairs ps) ++ "\x7d"
  | .vndarray xs => "[" ++ String.intercalate ", " (jsonDumpsList xs) ++ "]"
  | .vother rep => pyJsonStr rep

def jsonDumpsList : List Value → List String
  | [] => []
  | v :: vs => jsonDumps v :: jsonDumpsList vs

def jsonDumpsPairs : List (String × Value) → List String
  | [] => []
  | p :: ps => (pyJsonStr p.1 ++ ": " ++ jsonDumps p.2) :: jsonDumpsPairs ps

end

/-- Embedding of the literal-encoding branch chain of lines 259-292, in the
order the code tests: None, list/dict (JSON, quote-doubled, quoted), ndarray
(tolist then as list), scalar NA, bool, int/float (unquoted str), str
(quote-doubled, quoted), fallback (str() text, escaped like text). -/
def encodeValue : Value → String
  | .vnull => "NULL"
  | .vlist xs => sqlQuote (sqlEscape (jsonDumps (.vlist xs)))
  | .vdict ps => sqlQuote (sqlEscape (jsonDumps (.vdict ps)))
  | .vndarray xs => sqlQuote (sqlEscape (jsonDumps (.vlist xs)))
  | .vnan => "NULL"
  | .vbool b => if b then "TRUE" else "FALSE"
  | .vint n => toString n
  | .vfloat rep => rep
  | .vstr s => sqlQuote (sqlEscape s)
  | .vother rep => sqlQuote (sqlEscape rep)

/-- C3: literal encoding maps None and scalar NA to NULL, structured values
to their quote-doubled JSON text wrapped in single quotes (in particular
the two-element integer list renders as the bracketed comma-space JSON
text), booleans to TRUE or FALSE, numerics to their unquoted decimal text,
text to the quote-doubled singly-quoted form (in particular a quote inside
a string is doubled), and any other value to its str() text escaped like
text. -/
theorem c3_literal_encoding :
    encodeValue .vnull = "NULL"
    ∧ encodeValue .vnan = "NULL"
    ∧ (∀ b, encodeValue (.vbool b) = if b then "TRUE" else "FALSE")
    ∧ (∀ n : Int, encodeValue (.vint n) = toString n)
    ∧ (∀ rep, encodeValue (.vfloat rep) = rep)
    ∧ (∀ s, encodeValue (.vstr s) = sqlQuote (sqlEscape s))
    ∧ (∀ rep, encodeValue (.vother rep) = sqlQuote (sqlEscape rep))
    ∧ (∀ xs, encodeValue (.vlist xs) = sqlQuote (sqlEscape (jsonDumps (.vlist xs))))
    ∧ encodeValue (.vlist [.vint 1, .vint 2]) = sq ++ "[1, 2]" ++ sq
    ∧ encodeValue (.vstr ("a" ++ sq ++ "b")) = sq ++ "a" ++ sq ++ sq ++ "b" ++ sq
    ∧ encodeValue (.vint 42) = "42"
    ∧ encodeValue (.vint (-7)) = "-7"
    ∧ encodeValue (.vfloat "3.5") = "3.5"
    ∧ encodeValue (.vbool true) = "TRUE"
    ∧ encodeValue (.vbool false) = "FALSE"
    ∧ encodeValue (.vother ("x" ++ sq)) = sq ++ "x" ++ sq ++ sq ++ sq := by
  refine ⟨rfl, rfl, fun b => rfl, fun n => rfl, fun rep => rfl, fun s => rfl,
    fun rep => rfl, fun xs => rfl, ?_, ?_, rfl, ?_, rfl, rfl, rfl, ?_⟩
  · decide
  · decide
  · decide
  · decide

/-! ## Batch SQL writer model (write_with_sql_connector, lines 215-303, and
upload_to_delta_table, lines 143-213)

The statements write_with_sql_connector passes to cursor.execute are fully
determined by DataFrame and mode before any execution: an optional DROP
(line 242), the CREATE IF NOT EXISTS (line 244), then one multi-row INSERT
per 1000-row slice (lines 251-299); building an INSERT is pure.  The
executed sequence is therefore the prefix of this plan up to and including
the first failing execute; the early return on an empty DataFrame
(lines 247-249) coincides with the plan containing no INSERT. -/

/-- SQL statement issued through the Databricks SQL connector. -/
inductive Stmt
  | dropTable (t : String)
  | createTable (t : String) (cols : List (String × String))
  | insertInto (t : String) (cols : List String) (rows : List (List String))
  | describeTable (t : String)
  | createTableFromParquet (t : String) (loc : String)
  | insertFromParquet (t : String) (loc : String)
  deriving DecidableEq, Repr

/-- In-memory DataFrame: named columns with their pandas dtype text, and
rows of cell values. -/
structure Dataset where
  cols : List (String × String)
  rows : List (List Value)

def isDropStmt : Stmt → Bool
  | .dropTable _ => true
  | _ => false

def isPrefixList : List Char → List Char → Bool
  | [], _ => true
  | _ :: _, [] => false
  | a :: as, b :: bs => a = b && isPrefixList as bs

def containsSubList (pat : List Char) : List Char → Bool
  | [] => isPrefixList pat []
  | a :: rest => isPrefixList pat (a :: rest) || containsSubList pat rest

/-- Python substring membership test (pat in s). -/
def strContains (s pat : String) : Bool := containsSubList pat.data s.data

/-- Embedding of _pandas_to_sql_type (lines 305-318): substring tests on the
dtype text, in source order. -/
def pandasToSqlType (dtype : String) : String :=
  if strContains dtype "int" then "BIGINT"
  else if strContains dtype "float" then "DOUBLE"
  else if strContains dtype "bool" then "BOOLEAN"
  else if strContains dtype "datetime" then "TIMESTAMP"
  else "STRING"

/-- batch_size of line 251. -/
def batchSize : Nat := 1000

def sqlColDefs (d : Dataset) : List (String × String) :=
  d.cols.map (fun p => (p.1, pandasToSqlType p.2))

/-- One INSERT statement per 1000-row slice (lines 252-299), rows encoded by
the literal-encoding chain, column list taken from the DataFrame. -/
def insertBatches (t : String) (d : Dataset) : List Stmt :=
  (chunksOf batchSize d.rows).map
    (fun b => Stmt.insertInto t (d.cols.map Prod.fst) (b.map (fun r => r.map encodeValue)))

/-- DDL prefix of the plan: DROP only in overwrite mode (lines 241-242),
then CREATE IF NOT EXISTS (line 244). -/
def preStmts (t mode : String) (d : Dataset) : List Stmt :=
  (if mode = "overwrite" then [Stmt.dropTable t] else []) ++
    [Stmt.createTable t (sqlColDefs d)]

def writePlan (t mode : String) (d : Dataset) : List Stmt :=
  preStmts t mode d ++ insertBatches t d

/-- Sequential executor: statements run in order, each auto-committed;
the first failing execute (oracle false at its index) raises, and no later
statement is attempted.  Returns the executed trace and the failing
statement, if any. -/
def runStmtsFrom (oracle : Nat → Bool) : Nat → List Stmt → List Stmt × Option Stmt
  | _, [] => ([], none)
  | k, s :: rest =>
    if oracle k then
      ((s :: (runStmtsFrom oracle (k + 1) rest).1), (runStmtsFrom oracle (k + 1) rest).2)
    else ([s], some s)

/-- Model of write_with_sql_connector (lines 215-303). -/
def writeWithSqlConnector (oracle : Nat → Bool) (t mode : String) (d : Dataset) :
    List Stmt × Option Stmt :=
  runStmtsFrom oracle 0 (writePlan t mode d)

theorem runStmtsFrom_ok (oracle : Nat → Bool) :
    ∀ (stmts : List Stmt) (k : Nat),
      (∀ i, i < stmts.length → oracle (k + i) = true) →
      runStmtsFrom oracle k stmts = (stmts, none) := by
  intro stmts
  induction stmts with
  | nil => intro k _; rfl
  | cons s rest ih =>
    intro k h
    have h0 : oracle k = true := by
      have := h 0 (by simp)
      simpa using this
    rw [runStmtsFrom, if_pos h0, ih (k + 1) (fun i hi => by
      have := h (i + 1) (by simp; omega)
      rw [show k + 1 + i = k + (i + 1) by omega]
      exact this)]

theorem runStmtsFrom_allOk (stmts : List Stmt) (k : Nat) :
    runStmtsFrom allOk k stmts = (stmts, none) :=
  runStmtsFrom_ok allOk stmts k (fun _ _ => rfl)

theorem runStmtsFrom_fail (oracle : Nat → Bool) :
    ∀ (stmts : List Stmt) (k j : Nat), j < stmts.length →
      (∀ i, i < j → oracle (k + i) = true) → oracle (k + j) = false →
      runStmtsFrom oracle k stmts = (stmts.take (j + 1), stmts[j]?) := by
  intro stmts
  induction stmts with
  | nil => intro k j hj; simp at hj
  | cons s rest ih =>
    intro k j hj hok hbad
    cases j with
    | zero =>
      have h0 : oracle k = false := by simpa using hbad
      rw [runStmtsFrom, if_neg (by rw [h0]; simp)]
      simp
    | succ j =>
      have h0 : oracle k = true := by
        have := hok 0 (by omega)
        simpa using this
      rw [runStmtsFrom, if_pos h0, ih (k + 1) j (by simpa using Nat.lt_of_succ_lt_succ hj)
        (fun i hi => by
          have := hok (i + 1) (by omega)
          rw [show k + 1 + i = k + (i + 1) by omega]
          exact this)
        (by rw [show k + 1 + j = k + (j + 1) by omega]; exact hbad)]
      simp

theorem take_append_add (l₁ l₂ : List α) (i : Nat) :
    (l₁ ++ l₂).take (l₁.length + i) = l₁ ++ l₂.take i := by
  induction l₁ with
  | nil => simp
  | cons a t ih =>
    have h : (a :: t).length + i = (t.length + i) + 1 := by simp; omega
    rw [h, List.cons_append, List.take_succ_cons, ih, List.cons_append]

/-- C4: the insert plan partitions the rows into 1000-row batches (the count
is the ceiling of rows over 1000, every batch is nonempty with at most 1000
rows, and the batches concatenate back to the rows in order, one INSERT
statement per batch); when every execute succeeds the full plan runs in
order, and when the execute of batch k+1 fails (all earlier statements
having succeeded) the executed trace is exactly the DDL prefix plus batches
1..k+1, the failing INSERT is the surfaced error, and later batches are
never attempted. -/
theorem c4_batching_fail_fast (t mode : String) (d : Dataset) (oracle : Nat → Bool) :
    (insertBatches t d).length = (d.rows.length + 999) / 1000
    ∧ (chunksOf batchSize d.rows).flatten = d.rows
    ∧ (chunksOf batchSize d.rows).all
        (fun b => decide (b.length ≤ batchSize) && !b.isEmpty) = true
    ∧ ((∀ i, i < (writePlan t mode d).length → oracle i = true) →
        writeWithSqlConnector oracle t mode d = (writePlan t mode d, none))
    ∧ (∀ k, k < (insertBatches t d).length →
        (∀ i, i < (preStmts t mode d).length + k → oracle i = true) →
        oracle ((preStmts t mode d).length + k) = false →
        (writeWithSqlConnector oracle t mode d).1
            = preStmts t mode d ++ (insertBatches t d).take (k + 1)
        ∧ (writeWithSqlConnector oracle t mode d).2 = (insertBatches t d)[k]?) := by
  have hbs : 0 < batchSize := by norm_num [batchSize]
  refine ⟨?_, join_chunksOf batchSize hbs d.rows, ?_, ?_, ?_⟩
  · rw [insertBatches, List.length_map, chunksOf,
      length_chunksOfF batchSize hbs d.rows.length d.rows (Nat.le_refl _)]
    norm_num [batchSize]
  · rw [List.all_eq_true]
    intro b hb
    have := mem_chunksOfF batchSize hbs d.rows.length d.rows b hb
    simp only [Bool.and_eq_true, decide_eq_true_eq]
    exact ⟨this.1, by simpa [List.isEmpty_iff] using this.2⟩
  · intro h
    exact runStmtsFrom_ok oracle (writePlan t mode d) 0 (fun i hi => by simpa using h i hi)
  · intro k hk hok hbad
    have hj : (preStmts t mode d).length + k < (writePlan t mode d).length := by
      rw [writePlan, List.length_append]
      omega
    have hrun := runStmtsFrom_fail oracle (writePlan t mode d) 0
      ((preStmts t mode d).length + k) hj
      (fun i hi => by simpa using hok i hi)
      (by simpa using hbad)
    rw [writeWithSqlConnector, hrun]
    constructor
    · show (writePlan t mode d).take ((preStmts t mode d).length + k + 1) = _
      rw [writePlan, show (preStmts t mode d).length + k + 1
          = (preStmts t mode d).length + (k + 1) by omega, take_append_add]
    · show (writePlan t mode d)[(preStmts t mode d).length + k]? = _
      rw [writePlan, List.getElem?_append_right (by omega)]
      congr 1
      omega

/-- Example DataFrame with one BIGINT column and one row, used as concrete
input by witnesses. -/
def dsEx2 : Dataset := ⟨[("c", "int64")], [[Value.vint 1]]⟩

/-- Witness for c4_batching_fail_fast: one-row DataFrame in append mode, the
create succeeds and the single INSERT fails, so the trace is exactly create
plus the failing INSERT, which is also the surfaced error. -/
theorem c4_batching_fail_fast_witness :
    (writeWithSqlConnector (fun i => decide (i = 0)) "t" "append" dsEx2).1
        = preStmts "t" "append" dsEx2 ++ (insertBatches "t" dsEx2).take 1
    ∧ (writeWithSqlConnector (fun i => decide (i = 0)) "t" "append" dsEx2).2
        = (insertBatches "t" dsEx2)[0]? := by
  have h := (c4_batching_fail_fast "t" "append" dsEx2 (fun i => decide (i = 0))).2.2.2.2
    0 (by decide) (by decide) (by decide)
  exact ⟨h.1, h.2⟩

/-! ## Delta-table write via staged parquet (upload_to_delta_table,
lines 143-213)

The local parquet serialization has no network effect; the observable
sequence is the staging upload to DBFS (lines 160-169), the SQL connection
(lines 172-176), then the mode branch (lines 178-213).  In append mode the
DESCRIBE probe may fail (table absent); that exception is caught and a
plain CREATE is issued instead, so both probe outcomes appear in the
statement list.  For a mode other than overwrite and append a ValueError
is raised (line 213) after the staging upload and the connection, with no
statement executed. -/

/-- Observable network event of upload_to_delta_table. -/
inductive Event
  | dbfsReq (r : Req)
  | sqlConnect
  | sqlStmt (s : Stmt)
  deriving DecidableEq, Repr

/-- Statement sequence and raised error of the mode branch (lines 178-213);
tableExists tells whether the DESCRIBE probe of append mode succeeds. -/
def deltaTableStmts (t loc mode : String) (tableExists : Bool) :
    List Stmt × Option String :=
  if mode = "overwrite" then
    ([Stmt.dropTable t, Stmt.createTableFromParquet t loc], none)
  else if mode = "append" then
    if tableExists then ([Stmt.describeTable t, Stmt.insertFromParquet t loc], none)
    else ([Stmt.describeTable t, Stmt.createTableFromParquet t loc], none)
  else ([], some ("Invalid mode: " ++ mode))

/-- Model of upload_to_delta_table (lines 143-213) with every network call
succeeding except possibly the DESCRIBE probe. -/
def uploadToDeltaTable (fileBytes : List Nat) (t loc mode : String)
    (tableExists : Bool) (handle : Nat) : List Event × Option String :=
  ((uploadBytes allOk loc handle fileBytes).1.map Event.dbfsReq
     ++ [Event.sqlConnect]
     ++ (deltaTableStmts t loc mode tableExists).1.map Event.sqlStmt,
   (deltaTableStmts t loc mode tableExists).2)

/-- C5: in overwrite mode both table writers issue DROP TABLE IF EXISTS
before the create (it is the first statement, the create second); in append
mode neither writer ever issues a DROP statement. -/
theorem c5_drop_semantics (t loc : String) (d : Dataset) (ex : Bool) :
    (writePlan t "overwrite" d).take 2
        = [Stmt.dropTable t, Stmt.createTable t (sqlColDefs d)]
    ∧ (writeWithSqlConnector allOk t "overwrite" d).1.take 2
        = [Stmt.dropTable t, Stmt.createTable t (sqlColDefs d)]
    ∧ (writePlan t "append" d).all (fun s => !(isDropStmt s)) = true
    ∧ (deltaTableStmts t loc "overwrite" ex).1
        = [Stmt.dropTable t, Stmt.createTableFromParquet t loc]
    ∧ (deltaTableStmts t loc "append" ex).1.all (fun s => !(isDropStmt s)) = true := by
  refine ⟨?_, ?_, ?_, ?_, ?_⟩
  · simp [writePlan, preStmts]
  · rw [writeWithSqlConnector, runStmtsFrom_allOk]
    simp [writePlan, preStmts]
  · rw [List.all_eq_true]
    intro s hs
    rw [writePlan, List.mem_append] at hs
    rcases hs with hs | hs
    · simp only [preStmts, List.mem_append] at hs
      rcases hs with hs | hs
      · rw [if_neg (by decide)] at hs
        exact absurd hs (List.not_mem_nil s)
      · rcases List.mem_singleton.mp hs with rfl
        simp [isDropStmt]
    · rw [insertBatches, List.mem_map] at hs
      obtain ⟨b, _, rfl⟩ := hs
      simp [isDropStmt]
  · simp [deltaTableStmts]
  · cases ex <;> simp [deltaTableStmts, isDropStmt]

/-- C10: on an empty DataFrame write_with_sql_connector still executes the
DDL before its early return: DROP then CREATE IF NOT EXISTS in overwrite
mode, CREATE IF NOT EXISTS alone in append mode, and the CREATE statement
is executed for every mode; no INSERT is executed. -/
theorem c10_empty_still_executes_ddl (t : String) (cols : List (String × String)) :
    writeWithSqlConnector allOk t "overwrite" ⟨cols, []⟩
        = ([Stmt.dropTable t, Stmt.createTable t (sqlColDefs ⟨cols, []⟩)], none)
    ∧ writeWithSqlConnector allOk t "append" ⟨cols, []⟩
        = ([Stmt.createTable t (sqlColDefs ⟨cols, []⟩)], none)
    ∧ ∀ mode, Stmt.createTable t (sqlColDefs ⟨cols, []⟩)
        ∈ (writeWithSqlConnector allOk t mode ⟨cols, []⟩).1 := by
  have hplanEmpty : insertBatches t ⟨cols, []⟩ = [] := rfl
  refine ⟨?_, ?_, ?_⟩
  · rw [writeWithSqlConnector, runStmtsFrom_allOk]
    simp [writePlan, preStmts, hplanEmpty]
  · rw [writeWithSqlConnector, runStmtsFrom_allOk]
    simp [writePlan, preStmts, hplanEmpty]
  · intro mode
    rw [writeWithSqlConnector, runStmtsFrom_allOk]
    simp only [writePlan, preStmts, hplanEmpty, List.append_nil]
    exact List.mem_append.mpr (Or.inr (List.mem_singleton.mpr rfl))

/-- C6 (counterexample): with the unsupported mode bogus,
write_with_sql_connector raises no error at all and executes the CREATE and
the INSERT (treating the mode like append), while upload_to_delta_table
does raise, but only after the staging put request to DBFS and the SQL
connection have been made — refuting the claim that both operations raise a
configuration error before any network call. -/
theorem c6_counterexample :
    (writeWithSqlConnector allOk "t" "bogus" dsEx2).2 = none
    ∧ (writeWithSqlConnector allOk "t" "bogus" dsEx2).1
        = [Stmt.createTable "t" [("c", "BIGINT")],
           Stmt.insertInto "t" ["c"] [["1"]]]
    ∧ (uploadToDeltaTable [1] "t" "/s" "bogus" false 5).2
        = some ("Invalid mode: " ++ "bogus")
    ∧ (uploadToDeltaTable [1] "t" "/s" "bogus" false 5).1
        = [Event.dbfsReq (Req.put "/s" [1]), Event.sqlConnect] := by
  refine ⟨by decide, by decide, by decide, by decide⟩

/-- C6 (amended): for a write mode other than overwrite and append,
write_with_sql_connector raises no error and executes the same statement
plan as append mode (CREATE plus the INSERT batches, no DROP), while
upload_to_delta_table raises the invalid-mode ValueError only after the
staging upload requests and the SQL connection, executing no SQL
statement. -/
theorem c6_invalid_mode_behaviour (mode : String) (h1 : mode ≠ "overwrite")
    (h2 : mode ≠ "append") (t loc : String) (d : Dataset) (oracle : Nat → Bool)
    (fileBytes : List Nat) (ex : Bool) (handle : Nat) :
    writeWithSqlConnector oracle t mode d = writeWithSqlConnector oracle t "append" d
    ∧ (uploadToDeltaTable fileBytes t loc mode ex handle).2
        = some ("Invalid mode: " ++ mode)
    ∧ (uploadToDeltaTable fileBytes t loc mode ex handle).1
        = (uploadBytes allOk loc handle fileBytes).1.map Event.dbfsReq
            ++ [Event.sqlConnect] := by
  have hdt : deltaTableStmts t loc mode ex = ([], some ("Invalid mode: " ++ mode)) := by
    rw [deltaTableStmts, if_neg h1, if_neg h2]
  refine ⟨?_, ?_, ?_⟩
  · rw [writeWithSqlConnector, writeWithSqlConnector, writePlan, writePlan,
      preStmts, preStmts, if_neg h1, if_neg (by decide : ¬("append" = "overwrite"))]
  · rw [uploadToDeltaTable, hdt]
  · rw [uploadToDeltaTable, hdt]
    simp

/-- Witness for c6_invalid_mode_behaviour at mode bogus with a one-byte
staging file and a one-row DataFrame. -/
theorem c6_invalid_mode_witness :
    writeWithSqlConnector allOk "t" "bogus" dsEx2
        = writeWithSqlConnector allOk "t" "append" dsEx2
    ∧ (uploadToDeltaTable [1] "t" "/s" "bogus" false 5).2
        = some ("Invalid mode: " ++ "bogus")
    ∧ (uploadToDeltaTable [1] "t" "/s" "bogus" false 5).1
        = (uploadBytes allOk "/s" 5 [1]).1.map Event.dbfsReq
            ++ [Event.sqlConnect] :=
  c6_invalid_mode_behaviour "bogus" (by decide) (by decide) "t" "/s" dsEx2 allOk
    [1] false 5

/-! ## Column sanitization and the batch runner (run_all.py, lines 23-104)

Line 68 maps every character outside [a-zA-Z0-9_] to an underscore and then
strips leading and trailing underscores; lines 70-79 de-duplicate the
resulting names with a seen dict counting occurrences of each original
name.  The runner loop (lines 51-91) extracts each table, counts an empty
frame as a skipped success without invoking the uploader, otherwise
sanitizes the columns and uploads; any exception is caught, recorded under
the table name, and iteration continues with the next table. -/

def keepChar (c : Char) : Bool := c.isAlphanum || c = '_'

/-- Embedding of the re.sub of line 68: every character outside
[a-zA-Z0-9_] becomes an underscore. -/
def sanitizeChar (c : Char) : Char := if keepChar c then c else '_'

def isUnder (c : Char) : Bool := c == '_'

/-- Python strip applied with the underscore argument (line 68): removes
all leading and all trailing underscores. -/
def pyStrip (l : List Char) : List Char :=
  ((l.dropWhile isUnder).reverse.dropWhile isUnder).reverse

def sanitizeName (s : String) : String :=
  String.mk (pyStrip (s.data.map sanitizeChar))

/-- Dedup loop of lines 70-79: seen maps a name to its occurrence count so
far; a repeated name gets an underscore-count suffix.  The dict update is
embedded by prepending, List.lookup returning the newest entry. -/
def dedupLoop (seen : List (String × Nat)) : List String → List String
  | [] => []
  | c :: rest =>
    match seen.lookup c with
    | some k => (c ++ "_" ++ toString (k + 1)) :: dedupLoop ((c, k + 1) :: seen) rest
    | none => c :: dedupLoop ((c, 0) :: seen) rest

def sanitizeCols (cols : List String) : List String :=
  dedupLoop [] (cols.map sanitizeName)

/-- Column renaming of lines 66-79 applied to a DataFrame: names pass
through sanitization and dedup, dtypes and rows are untouched. -/
def sanitizeDataset (d : Dataset) : Dataset :=
  ⟨(sanitizeCols (d.cols.map Prod.fst)).zip (d.cols.map Prod.snd), d.rows⟩

/-- Final report of run_all.main (lines 92-104): success and error counts,
failed tables with messages in iteration order, plus the tables for which
the uploader was invoked, in order. -/
structure RunReport where
  successCount : Nat
  errorCount : Nat
  errors : List (String × String)
  uploaded : List String
  deriving DecidableEq, Repr

/-- Model of the per-table loop of run_all.main (lines 51-91). -/
def runAll (extract : String → Except String Dataset)
    (upload : String → Dataset → Except String Unit) :
    List String → RunReport
  | [] => ⟨0, 0, [], []⟩
  | t :: rest =>
    match extract t with
    | .error e =>
      let r := runAll extract upload rest
      ⟨r.successCount, r.errorCount + 1, (t, e) :: r.errors, r.uploaded⟩
    | .ok df =>
      if df.rows.length = 0 then
        let r := runAll extract upload rest
        ⟨r.successCount + 1, r.errorCount, r.errors, r.uploaded⟩
      else
        match upload t (sanitizeDataset df) with
        | .ok _ =>
          let r := runAll extract upload rest
          ⟨r.successCount + 1, r.errorCount, r.errors, t :: r.uploaded⟩
        | .error e =>
          let r := runAll extract upload rest
          ⟨r.successCount, r.errorCount + 1, (t, e) :: r.errors, t :: r.uploaded⟩

/-- Whether processing one table ends in the except branch of lines 87-90. -/
def failsOn (extract : String → Except String Dataset)
    (upload : String → Dataset → Except String Unit) (t : String) : Bool :=
  match extract t with
  | .error _ => true
  | .ok df =>
    if df.rows.length = 0 then false
    else
      match upload t (sanitizeDataset df) with
      | .ok _ => false
      | .error _ => true

def exABC : String → Except String Dataset := fun _ => .ok dsEx2

def upABC : String → Dataset → Except String Unit :=
  fun t _ => if t = "B" then .error "boom" else .ok ()

/-- C7: every table is attempted exactly once (successes and failures sum to
the input length), the failed tables are recorded under their identifiers in
iteration order, and in the concrete scenario where only the upload of B
raises, the report shows two successes, the single failure (B, boom), and
the uploader invoked for all three non-empty tables in order. -/
theorem c7_failure_isolation (extract : String → Except String Dataset)
    (upload : String → Dataset → Except String Unit) (ts : List String) :
    (runAll extract upload ts).successCount + (runAll extract upload ts).errorCount
        = ts.length
    ∧ (runAll extract upload ts).errors.map Prod.fst
        = ts.filter (failsOn extract upload)
    ∧ runAll exABC upABC ["A", "B", "C"]
        = ⟨2, 1, [("B", "boom")], ["A", "B", "C"]⟩ := by
  refine ⟨?_, ?_, by decide⟩
  · induction ts with
    | nil => rfl
    | cons t rest ih =>
      cases hex : extract t with
      | error e =>
        simp only [runAll, hex, List.length_cons]
        omega
      | ok df =>
        by_cases hz : df.rows.length = 0
        · simp only [runAll, hex, if_pos hz, List.length_cons]
          omega
        · cases hup : upload t (sanitizeDataset df) with
          | ok u =>
            simp only [runAll, hex, if_neg hz, hup, List.length_cons]
            omega
          | error e =>
            simp only [runAll, hex, if_neg hz, hup, List.length_cons]
            omega
  · induction ts with
    | nil => rfl
    | cons t rest ih =>
      cases hex : extract t with
      | error e =>
        simp only [runAll, hex, List.map_cons, List.filter_cons, failsOn]
        rw [if_pos (by trivial)]
        simpa using ih
      | ok df =>
        by_cases hz : df.rows.length = 0
        · simp only [runAll, hex, if_pos hz, List.filter_cons, failsOn]
          rw [if_neg (by simp [hz])]
          exact ih
        · cases hup : upload t (sanitizeDataset df) with
          | ok u =>
            simp only [runAll, hex, if_neg hz, hup, List.filter_cons, failsOn]
            rw [if_neg (by simp [hz, hup])]
            exact ih
          | error e =>
            simp only [runAll, hex, if_neg hz, hup, List.map_cons, List.filter_cons, failsOn]
            rw [if_pos (by simp [hz, hup])]
            simpa using ih

theorem keep_sanitizeChar (c : Char) : keepChar (sanitizeChar c) = true := by
  rw [sanitizeChar]
  by_cases h : keepChar c
  · rw [if_pos h]; exact h
  · rw [if_neg h]; decide

theorem sanitizeChar_idem (c : Char) : sanitizeChar (sanitizeChar c) = sanitizeChar c := by
  rw [sanitizeChar, if_pos (keep_sanitizeChar c)]

theorem map_id_of_fix (f : α → α) :
    ∀ l : List α, (∀ c ∈ l, f c = c) → l.map f = l := by
  intro l
  induction l with
  | nil => intro _; rfl
  | cons a t ih =>
    intro h
    rw [List.map_cons, h a (by simp), ih (fun c hc => h c (by simp [hc]))]

theorem mem_of_mem_dropWhile (p : α → Bool) :
    ∀ (l : List α) (c : α), c ∈ l.dropWhile p → c ∈ l := by
  intro l
  induction l with
  | nil => intro c h; simp at h
  | cons a t ih =>
    intro c h
    by_cases hp : p a
    · rw [List.dropWhile_cons_of_pos hp] at h
      exact List.mem_cons_of_mem a (ih c h)
    · rw [List.dropWhile_cons_of_neg hp] at h
      exact h

theorem mem_of_mem_pyStrip (c : Char) (l : List Char) (h : c ∈ pyStrip l) : c ∈ l := by
  rw [pyStrip, List.mem_reverse] at h
  have h2 := mem_of_mem_dropWhile isUnder _ c h
  rw [List.mem_reverse] at h2
  exact mem_of_mem_dropWhile isUnder l c h2

theorem dropWhile_idem (p : α → Bool) :
    ∀ l : List α, (l.dropWhile p).dropWhile p = l.dropWhile p := by
  intro l
  induction l with
  | nil => rfl
  | cons x xs ih =>
    by_cases hp : p x
    · rw [List.dropWhile_cons_of_pos hp]; exact ih
    · rw [List.dropWhile_cons_of_neg hp, List.dropWhile_cons_of_neg hp]

theorem not_p_head_of_dropWhile_eq (p : α → Bool) :
    ∀ (l : List α) (a : α) (t : List α), l.dropWhile p = a :: t → p a = false := by
  intro l
  induction l with
  | nil => intro a t h; simp at h
  | cons x xs ih =>
    intro a t h
    by_cases hp : p x
    · rw [List.dropWhile_cons_of_pos hp] at h
      exact ih a t h
    · rw [List.dropWhile_cons_of_neg hp] at h
      injection h with h1 _
      subst h1
      simpa using hp

theorem pyStrip_reverse (l : List Char) :
    (pyStrip l).reverse = (l.dropWhile isUnder).reverse.dropWhile isUnder := by
  rw [pyStrip, List.reverse_reverse]

theorem pyStrip_decompose (l : List Char) :
    l.dropWhile isUnder
      = pyStrip l
        ++ (List.takeWhile isUnder (l.dropWhile isUnder).reverse).reverse := by
  have hsplit : List.takeWhile isUnder (l.dropWhile isUnder).reverse
      ++ List.dropWhile isUnder (l.dropWhile isUnder).reverse
      = (l.dropWhile isUnder).reverse :=
    List.takeWhile_append_dropWhile isUnder (l.dropWhile isUnder).reverse
  have := congrArg List.reverse hsplit
  rw [List.reverse_append, List.reverse_reverse] at this
  exact this.symm

theorem pyStrip_head_not_under (l : List Char) (a : Char) (t : List Char)
    (h : pyStrip l = a :: t) : isUnder a = false := by
  have h2 := pyStrip_decompose l
  rw [h, List.cons_append] at h2
  exact not_p_head_of_dropWhile_eq isUnder l a _ h2

theorem pyStrip_last_not_under (l : List Char) (a : Char) (t : List Char)
    (h : (pyStrip l).reverse = a :: t) : isUnder a = false := by
  rw [pyStrip_reverse] at h
  exact not_p_head_of_dropWhile_eq isUnder _ a t h

theorem dropWhile_pyStrip (l : List Char) :
    (pyStrip l).dropWhile isUnder = pyStrip l := by
  cases hm : pyStrip l with
  | nil => rfl
  | cons a t =>
    have ha := pyStrip_head_not_under l a t hm
    rw [List.dropWhile_cons_of_neg (by rw [ha]; simp)]

theorem pyStrip_idem (l : List Char) : pyStrip (pyStrip l) = pyStrip l := by
  show (((pyStrip l).dropWhile isUnder).reverse.dropWhile isUnder).reverse = pyStrip l
  rw [dropWhile_pyStrip, pyStrip_reverse, dropWhile_idem]
  rfl

/-- C8 (counterexample): dedup checks a candidate only against the original
names, never against the suffixed names it has already produced, so the
input [col, col, col_1] yields [col, col_1, col_1], which is not
pairwise-unique — refuting the uniqueness part of the claim. -/
theorem c8_unique_counterexample :
    sanitizeCols ["col", "col", "col_1"] = ["col", "col_1", "col_1"]
    ∧ decide (sanitizeCols ["col", "col", "col_1"]).Nodup = false := by
  exact ⟨by decide, by decide⟩

/-- C8 (amended): per-name sanitization is idempotent and restricts a name
to alphanumeric and underscore characters with no leading or trailing
underscore; duplicates among the sanitized names get deterministic numeric
suffixes in first-seen order (col, col_1, col_2), but the suffixed outputs
are not checked against the other names, so pairwise uniqueness of the
final list is not guaranteed. -/
theorem c8_sanitize_props :
    (∀ s, sanitizeName (sanitizeName s) = sanitizeName s)
    ∧ (∀ s, (sanitizeName s).data.all keepChar = true)
    ∧ (∀ s, isUnder ((sanitizeName s).data.headD 'x') = false)
    ∧ (∀ s, isUnder ((sanitizeName s).data.getLastD 'x') = false)
    ∧ sanitizeCols ["col", "col", "col"] = ["col", "col_1", "col_2"]
    ∧ sanitizeCols ["a b", "a-b"] = ["a_b", "a_b_1"] := by
  refine ⟨?_, ?_, ?_, ?_, by decide, by decide⟩
  · intro s
    have hfix : (pyStrip (s.data.map sanitizeChar)).map sanitizeChar
        = pyStrip (s.data.map sanitizeChar) := by
      apply map_id_of_fix
      intro c hc
      obtain ⟨a, _, rfl⟩ := List.mem_map.mp (mem_of_mem_pyStrip c _ hc)
      exact sanitizeChar_idem a
    simp only [sanitizeName]
    congr 1
    show pyStrip ((pyStrip (s.data.map sanitizeChar)).map sanitizeChar)
        = pyStrip (s.data.map sanitizeChar)
    rw [hfix, pyStrip_idem]
  · intro s
    rw [List.all_eq_true]
    intro c hc
    obtain ⟨a, _, rfl⟩ := List.mem_map.mp (mem_of_mem_pyStrip c _ hc)
    exact keep_sanitizeChar a
  · intro s
    cases hm : (sanitizeName s).data with
    | nil => decide
    | cons a t =>
      rw [List.headD_cons]
      exact pyStrip_head_not_under (s.data.map sanitizeChar) a t hm
  · intro s
    rw [List.getLastD_eq_getLast?, List.getLast?_eq_head?_reverse]
    cases hm : (sanitizeName s).data.reverse with
    | nil => decide
    | cons a t =>
      rw [List.head?_cons, Option.getD_some]
      exact pyStrip_last_not_under (s.data.map sanitizeChar) a t hm

def isInsertStmt : Stmt → Bool
  | .insertInto _ _ _ => true
  | _ => false

/-- C9: on an empty DataFrame write_with_sql_connector finishes without
error and without executing any INSERT statement (zero rows written), and
the batch runner counts a table whose extracted DataFrame is empty as a
success without invoking the uploader and without recording any error. -/
theorem c9_empty_dataset (t mode : String) (cols : List (String × String)) :
    (writeWithSqlConnector allOk t mode ⟨cols, []⟩).2 = none
    ∧ (writeWithSqlConnector allOk t mode ⟨cols, []⟩).1.all
        (fun s => !(isInsertStmt s)) = true
    ∧ (∀ (extract : String → Except String Dataset)
         (upload : String → Dataset → Except String Unit)
         (name : String) (rest : List String),
        extract name = Except.ok (⟨cols, []⟩ : Dataset) →
        runAll extract upload (name :: rest)
          = ⟨(runAll extract upload rest).successCount + 1,
             (runAll extract upload rest).errorCount,
             (runAll extract upload rest).errors,
             (runAll extract upload rest).uploaded⟩) := by
  have hplanEmpty : insertBatches t ⟨cols, []⟩ = [] := rfl
  refine ⟨?_, ?_, ?_⟩
  · rw [writeWithSqlConnector, runStmtsFrom_allOk]
  · rw [writeWithSqlConnector, runStmtsFrom_allOk]
    rw [List.all_eq_true]
    intro s hs
    simp only [writePlan, preStmts, hplanEmpty, List.append_nil, List.mem_append] at hs
    rcases hs with hs | hs
    · by_cases hmode : mode = "overwrite"
      · rw [if_pos hmode] at hs
        rcases List.mem_singleton.mp hs with rfl
        rfl
      · rw [if_neg hmode] at hs
        exact absurd hs (List.not_mem_nil s)
    · rcases List.mem_singleton.mp hs with rfl
      rfl
  · intro extract upload name rest hex
    simp only [runAll, hex]
    rw [if_pos (by rfl)]

def exEmpty : String → Except String Dataset := fun _ => .ok ⟨[("c", "int64")], []⟩

def upNever : String → Dataset → Except String Unit := fun _ _ => .error "never"

/-- Witness for c9_empty_dataset: a single table whose DataFrame is empty;
the run counts one success, and even an uploader that would fail on any
call leaves no error, since it is never invoked. -/
theorem c9_empty_dataset_witness :
    runAll exEmpty upNever ["A"] = ⟨1, 0, [], []⟩ := by
  have h := (c9_empty_dataset "t" "overwrite" [("c", "int64")]).2.2
    exEmpty upNever "A" [] rfl
  exact h
